import Mathlib

/-!
Shallow embedding of the matchstick frontend matching workflow, translated
from `src/frontend/app/page.tsx`.  Pure helpers (`getStages`, the inline
industry-tag filter, the page-button window) become Lean functions; the React
state updates of `handleIndustryChange`, `handlePageChange` and `handleSubmit`
become explicit state-passing functions, with the three network endpoints
modelled as oracles `Request → FetchResult body` and the list of issued
requests returned alongside the new state.
-/

/-- Embeds JS `s.toLowerCase()` for the ASCII strings used in the page:
maps `Char.toLower` over the characters. -/
def lowerStr (s : String) : String := ⟨s.data.map Char.toLower⟩

/-- Embeds JS `s.includes(sub)`: substring containment. -/
def strIncludes (s sub : String) : Bool := decide (sub.data <:+: s.data)

/-- The fixed list of known stage labels (page.tsx line 44). -/
def knownStages : List String :=
  ["Pre-Seed", "Seed", "Series A", "Series B", "Series C", "Series D"]

/-- Embeds `getStages` (page.tsx lines 41-52).  JS `if (!stageString) return []`
treats both an absent argument and the empty string as falsy, hence the
`Option String` argument and the empty-string test.  The loop over
`knownStages` pushing every label contained in the input is a filter of the
fixed list in its fixed order. -/
def getStages (stageString : Option String) : List String :=
  match stageString with
  | none => []
  | some str =>
      if str = "" then []
      else knownStages.filter (fun stage => strIncludes str stage)

/-- The canonical 12-industry enumeration `availableIndustries`
(page.tsx lines 71-84). -/
def availableIndustries : List String :=
  ["AI/ML", "FinTech", "SaaS", "Healthcare", "E-Commerce", "Cybersecurity",
   "Big Data & Analytics", "Cloud", "Mobile", "Enterprise", "Consumer",
   "Developer Tools"]

/-- Embeds the inline industry-tag derivation of the investor card
(page.tsx lines 289-292):
`vc.fund_focus_sectors ? availableIndustries.filter(i =>
vc.fund_focus_sectors!.toLowerCase().includes(i.toLowerCase())) : []`.
JS truthiness again makes the empty string fall to the `[]` branch. -/
def deriveIndustryTags (fundFocusSectors : Option String) : List String :=
  match fundFocusSectors with
  | none => []
  | some s =>
      if s = "" then []
      else availableIndustries.filter
        (fun i => strIncludes (lowerStr s) (lowerStr i))

/-- Embeds `handleIndustryChange` (page.tsx lines 90-110), acting on the
`industries` field of the form state: case-insensitive membership test,
removal by case-insensitive filter, otherwise insertion of the canonically
cased label looked up in `availableIndustries` (no-op when absent there). -/
def handleIndustryChange (prev : List String) (industry : String) :
    List String :=
  let lc := lowerStr industry
  if prev.any (fun i => lowerStr i == lc) then
    prev.filter (fun i => !(lowerStr i == lc))
  else
    match availableIndustries.find? (fun i => lowerStr i == lc) with
    | some originalCasingIndustry => prev ++ [originalCasingIndustry]
    | none => prev

/-- Embeds the page-number button window (page.tsx lines 347-357):
`Array.from({length: Math.min(5, totalPages)}, (_, i) => pageNum)` with the
four-way choice of `pageNum`. -/
def pageButtons (totalPages currentPage : Nat) : List Nat :=
  (List.range (min 5 totalPages)).map (fun i =>
    if totalPages ≤ 5 then i + 1
    else if currentPage ≤ 3 then i + 1
    else if totalPages - 2 ≤ currentPage then totalPages - 4 + i
    else currentPage - 2 + i)

/-- The `VC` record shape of the matching response (page.tsx lines 20-29). -/
structure VC where
  id : Nat
  investor_name : String
  partner_name : Option String := none
  partner_email : Option String := none
  fund_focus_sectors : Option String := none
  fund_stage : Option String := none
  website : Option String := none
  match_score : Int := 0
deriving DecidableEq

/-- The `MatchingResponse` body shape (page.tsx lines 31-39). -/
structure MatchingResponse where
  success : Bool
  sectors : List String
  count : Nat
  «matches» : List VC
  page : Nat
  per_page : Nat
  total_pages : Nat
deriving DecidableEq

/-- The `StartupForm` state (page.tsx lines 12-18). -/
structure StartupForm where
  email : String
  startupName : String
  website : String
  fundingStage : String
  industries : List String
deriving DecidableEq

/-- The component state hooks of `Component` (page.tsx lines 55-68):
`formData`, `isLoading`, `matches`, `totalMatches`, `showResults`, `error`,
`currentPage`, `totalPages`. -/
structure AppState where
  formData : StartupForm
  isLoading : Bool
  «matches» : List VC
  totalMatches : Nat
  showResults : Bool
  error : String
  currentPage : Nat
  totalPages : Nat
deriving DecidableEq

/-- The fixed `perPage` state (page.tsx line 69). -/
def perPage : Nat := 21

/-- Outcome of one `fetch`: either `response.ok` with the parsed JSON body,
or a non-ok response (which the handlers turn into a thrown `Error`). -/
inductive FetchResult (α : Type) where
  | ok (body : α)
  | httpError
deriving DecidableEq

/-- Body sent to the matching endpoint `/api/matching/find`
(page.tsx lines 122-127 and 196-201). -/
structure MatchingRequest where
  sectors : List String
  funding_stage : String
  page : Nat
  per_page : Nat
deriving DecidableEq

/-- Body sent to the Formspree lead-capture endpoint
(page.tsx lines 157-164). -/
structure FormspreeBody where
  email : String
  startupName : String
  website : String
  fundingStage : String
  industries : String
  message : String
deriving DecidableEq

/-- Body sent to the startup-record endpoint `/api/startups/submit`
(page.tsx lines 177-183). -/
structure StartupBody where
  company_name : String
  founder_name : String
  founder_email : String
  sector : String
  funding_stage : String
deriving DecidableEq

/-- One of the three network calls a handler can issue, with its body. -/
inductive NetCall where
  | formspree (body : FormspreeBody)
  | startup (body : StartupBody)
  | matching (body : MatchingRequest)
deriving DecidableEq

/-- Embeds JS `arr.join(", ")`. -/
def joinComma (l : List String) : String := String.intercalate ", " l

/-- The matching-request body built by `handlePageChange` for a requested
page (page.tsx lines 122-127). -/
def pageChangeRequest (s : AppState) (page : Nat) : MatchingRequest :=
  { sectors := s.formData.industries
    funding_stage := s.formData.fundingStage
    page := page
    per_page := perPage }

/-- Embeds `handlePageChange` (page.tsx lines 112-143).  The fetch is an
oracle argument; the result is the post-handler state together with the list
of matching requests issued.  The handler sets the busy flag, clears the
error, always issues the fetch, and on a non-ok response catches the thrown
`Error` into the error message; `finally` clears the busy flag. -/
def handlePageChange (s : AppState) (page : Nat)
    (fetchMatching : MatchingRequest → FetchResult MatchingResponse) :
    AppState × List MatchingRequest :=
  let s1 : AppState := { s with isLoading := true, error := "" }
  let req := pageChangeRequest s page
  match fetchMatching req with
  | .ok matchingData =>
      ({ s1 with
          «matches» := matchingData.«matches»
          currentPage := matchingData.page
          totalPages := matchingData.total_pages
          isLoading := false }, [req])
  | .httpError =>
      ({ s1 with
          error := "Failed to find matching investors"
          isLoading := false }, [req])

/-- The Formspree body built by `handleSubmit` (page.tsx lines 157-164). -/
def formspreeBody (s : AppState) : FormspreeBody :=
  { email := s.formData.email
    startupName := s.formData.startupName
    website := s.formData.website
    fundingStage := s.formData.fundingStage
    industries := joinComma s.formData.industries
    message := "New startup submission: " ++ s.formData.startupName ++ " ("
      ++ s.formData.fundingStage ++ " stage) in "
      ++ joinComma s.formData.industries }

/-- The startup-record body built by `handleSubmit` (page.tsx lines 177-183). -/
def startupBody (s : AppState) : StartupBody :=
  { company_name := s.formData.startupName
    founder_name := s.formData.email
    founder_email := s.formData.email
    sector := joinComma s.formData.industries
    funding_stage := s.formData.fundingStage }

/-- The matching-request body built by `handleSubmit` (page.tsx lines
196-201): page 1, page size `perPage`. -/
def submitMatchingRequest (s : AppState) : MatchingRequest :=
  { sectors := s.formData.industries
    funding_stage := s.formData.fundingStage
    page := 1
    per_page := perPage }

/-- Embeds `handleSubmit` (page.tsx lines 145-219).  The three fetches are
oracle arguments; the result is the post-handler state together with the
ordered list of network calls issued.  Each await is sequential; a non-ok
response throws, the `catch` stores the `Error` message, and `finally`
clears the busy flag. -/
def handleSubmit (s : AppState)
    (fetchFormspree : FormspreeBody → FetchResult Unit)
    (fetchStartup : StartupBody → FetchResult Unit)
    (fetchMatching : MatchingRequest → FetchResult MatchingResponse) :
    AppState × List NetCall :=
  let s1 : AppState := { s with isLoading := true, error := "" }
  let b1 := formspreeBody s
  match fetchFormspree b1 with
  | .httpError =>
      ({ s1 with error := "Failed to submit form data", isLoading := false },
        [.formspree b1])
  | .ok _ =>
      let b2 := startupBody s
      match fetchStartup b2 with
      | .httpError =>
          ({ s1 with
              error := "Failed to submit startup information"
              isLoading := false },
            [.formspree b1, .startup b2])
      | .ok _ =>
          let b3 := submitMatchingRequest s
          match fetchMatching b3 with
          | .httpError =>
              ({ s1 with
                  error := "Failed to find matching investors"
                  isLoading := false },
                [.formspree b1, .startup b2, .matching b3])
          | .ok matchingData =>
              ({ s1 with
                  «matches» := matchingData.«matches»
                  totalMatches := matchingData.count
                  currentPage := matchingData.page
                  totalPages := matchingData.total_pages
                  showResults := true
                  isLoading := false },
                [.formspree b1, .startup b2, .matching b3])

/-- The invariant of the industry selection set: every stored entry is a
canonical enumeration entry, and no two entries agree after lowercasing
(hence none differ only by case, and there are no duplicates). -/
def IndustryInv (l : List String) : Prop :=
  (∀ x ∈ l, x ∈ availableIndustries) ∧
    l.Pairwise (fun a b => lowerStr a ≠ lowerStr b)

instance (l : List String) : Decidable (IndustryInv l) := by
  unfold IndustryInv; infer_instance

open List

/-! Helper lemmas shared by several claims. -/

/-- Equation lemma: `getStages` on a present string is the filter of
`knownStages` by substring containment (the empty string reaches the same
result through the falsy early return). -/
theorem getStages_some_eq (str : String) :
    getStages (some str) =
      knownStages.filter (fun stage => strIncludes str stage) := by
  by_cases h : str = ""
  · subst h; decide
  · simp [getStages, h]

/-- Equation lemma: `deriveIndustryTags` on a present string is the filter of
`availableIndustries` by case-insensitive substring containment. -/
theorem deriveIndustryTags_some_eq (s : String) :
    deriveIndustryTags (some s) =
      availableIndustries.filter
        (fun i => strIncludes (lowerStr s) (lowerStr i)) := by
  by_cases h : s = ""
  · subst h; decide
  · simp [deriveIndustryTags, h]

/-- Unfolding lemma: `strIncludes` as the infix proposition. -/
theorem strIncludes_iff (s sub : String) :
    strIncludes s sub = true ↔ sub.data <:+: s.data := by
  simp [strIncludes]

/-- C4: for every defined input string, the stage-tag derivation returns
exactly those labels of the fixed list knownStages that occur as substrings
of the input (membership characterization), as a sublist of knownStages
(hence in the fixed list order, regardless of order of appearance in the
input); an absent input yields the empty sequence. -/
theorem getStages_exactly_substring_labels (l str : String) :
    (l ∈ getStages (some str) ↔ l ∈ knownStages ∧ l.data <:+: str.data) ∧
    List.Sublist (getStages (some str)) knownStages ∧
    getStages none = [] := by
  refine ⟨?_, ?_, rfl⟩
  · rw [getStages_some_eq]
    simp [List.mem_filter, strIncludes_iff]
  · rw [getStages_some_eq]
    exact List.filter_sublist knownStages

/-- C10: the stage-tag derivation is case-sensitive — the all-lowercase input
"seed and series a investor" yields the empty sequence — and since "Seed" is
a literal substring of "Pre-Seed", every input containing "Pre-Seed" yields a
sequence containing both "Pre-Seed" and "Seed". -/
theorem getStages_case_sensitive_preseed (str : String)
    (h : "Pre-Seed".data <:+: str.data) :
    getStages (some "seed and series a investor") = [] ∧
    "Pre-Seed" ∈ getStages (some str) ∧
    "Seed" ∈ getStages (some str) := by
  refine ⟨by decide, ?_, ?_⟩
  · exact ((getStages_exactly_substring_labels "Pre-Seed" str).1).mpr
      ⟨by decide, h⟩
  · exact ((getStages_exactly_substring_labels "Seed" str).1).mpr
      ⟨by decide, List.IsInfix.trans (by decide) h⟩

/-- Witness for C10 at the concrete input "Pre-Seed and Seed investor". -/
theorem getStages_case_sensitive_preseed_witness :
    ("Pre-Seed".data <:+: "Pre-Seed and Seed investor".data) ∧
    (getStages (some "seed and series a investor") = [] ∧
      "Pre-Seed" ∈ getStages (some "Pre-Seed and Seed investor") ∧
      "Seed" ∈ getStages (some "Pre-Seed and Seed investor")) :=
  ⟨by decide, getStages_case_sensitive_preseed "Pre-Seed and Seed investor"
    (by decide)⟩

/-- C5: for every defined sector-focus string, the industry-tag derivation
returns exactly those canonical labels that occur case-insensitively as
substrings of the input (membership characterization), as a sublist of the
canonical enumeration (hence in canonical order); an absent input yields the
empty sequence; and the input "AI/ML and SAAS focus" yields
["AI/ML", "SaaS"]. -/
theorem deriveIndustryTags_exactly_matching_labels (l s : String) :
    (l ∈ deriveIndustryTags (some s) ↔
      l ∈ availableIndustries ∧ (lowerStr l).data <:+: (lowerStr s).data) ∧
    List.Sublist (deriveIndustryTags (some s)) availableIndustries ∧
    deriveIndustryTags none = [] ∧
    deriveIndustryTags (some "AI/ML and SAAS focus") = ["AI/ML", "SaaS"] := by
  refine ⟨?_, ?_, rfl, by decide⟩
  · rw [deriveIndustryTags_some_eq]
    simp [List.mem_filter, strIncludes_iff]
  · rw [deriveIndustryTags_some_eq]
    exact List.filter_sublist availableIndustries

/-- C8: for every totalPages ≥ 2, the page-number button list is all pages
1..totalPages when totalPages ≤ 5; pages 1..5 when totalPages > 5 and
currentPage ≤ 3; the last five pages when totalPages > 5 and
currentPage ≥ totalPages − 2; the centered window currentPage−2..currentPage+2
otherwise; and never more than five buttons. -/
theorem pageButtons_window (t c : Nat) (ht : 2 ≤ t) :
    (t ≤ 5 → pageButtons t c = List.range' 1 t) ∧
    (5 < t → c ≤ 3 → pageButtons t c = [1, 2, 3, 4, 5]) ∧
    (5 < t → t - 2 ≤ c → pageButtons t c = [t - 4, t - 3, t - 2, t - 1, t]) ∧
    (5 < t → 3 < c → c < t - 2 →
      pageButtons t c = [c - 2, c - 1, c, c + 1, c + 2]) ∧
    (pageButtons t c).length ≤ 5 := by
  refine ⟨?_, ?_, ?_, ?_, ?_⟩
  · intro h5
    have hm : min 5 t = t := by omega
    rw [pageButtons, hm, List.range'_eq_map_range]
    refine List.map_congr_left ?_
    intro a _
    rw [if_pos h5]
    omega
  · intro h5 hc
    have hm : min 5 t = 5 := by omega
    have h5n : ¬ (t ≤ 5) := by omega
    rw [pageButtons, hm]
    simp [show List.range 5 = [0, 1, 2, 3, 4] from rfl, h5n, hc]
  · intro h5 hc
    have hm : min 5 t = 5 := by omega
    have h5n : ¬ (t ≤ 5) := by omega
    have hc3 : ¬ (c ≤ 3) := by omega
    rw [pageButtons, hm]
    simp only [show List.range 5 = [0, 1, 2, 3, 4] from rfl, List.map_cons,
      List.map_nil, if_neg h5n, if_neg hc3, if_pos hc, List.cons.injEq,
      and_true]
    omega
  · intro h5 hc3 hcw
    have hm : min 5 t = 5 := by omega
    have h5n : ¬ (t ≤ 5) := by omega
    have hc3n : ¬ (c ≤ 3) := by omega
    have hcwn : ¬ (t - 2 ≤ c) := by omega
    rw [pageButtons, hm]
    simp only [show List.range 5 = [0, 1, 2, 3, 4] from rfl, List.map_cons,
      List.map_nil, if_neg h5n, if_neg hc3n, if_neg hcwn, List.cons.injEq,
      and_true]
    omega
  · simp only [pageButtons, List.length_map, List.length_range]
    omega

/-- Witness for C8 at the concrete inputs of the claim: totalPages = 10 with
currentPage 1, 10 and 5. -/
theorem pageButtons_window_witness :
    2 ≤ 10 ∧ pageButtons 10 1 = [1, 2, 3, 4, 5] ∧
    pageButtons 10 10 = [6, 7, 8, 9, 10] ∧
    pageButtons 10 5 = [3, 4, 5, 6, 7] :=
  ⟨by decide,
   (pageButtons_window 10 1 (by decide)).2.1 (by decide) (by decide),
   by have h := (pageButtons_window 10 10 (by decide)).2.2.1 (by decide)
        (by decide)
      simpa using h,
   by have h := (pageButtons_window 10 5 (by decide)).2.2.2.1 (by decide)
        (by decide) (by decide)
      simpa using h⟩

/-- Lowercasing is injective on the canonical enumeration: no two canonical
labels agree after lowercasing. -/
theorem availableIndustries_lower_inj :
    ∀ a ∈ availableIndustries, ∀ b ∈ availableIndustries,
      lowerStr a = lowerStr b → a = b := by decide

/-- Equation lemma: when some selected entry matches case-insensitively, the
toggle filters out every case-insensitive match. -/
theorem handleIndustryChange_of_mem (l : List String) (L : String)
    (h : l.any (fun i => lowerStr i == lowerStr L) = true) :
    handleIndustryChange l L =
      l.filter (fun i => !(lowerStr i == lowerStr L)) := by
  simp [handleIndustryChange, h]

/-- Equation lemma: when no selected entry matches and the canonical lookup
finds `c`, the toggle appends `c`. -/
theorem handleIndustryChange_of_not_mem_found (l : List String) (L c : String)
    (h : l.any (fun i => lowerStr i == lowerStr L) = false)
    (hf : availableIndustries.find? (fun i => lowerStr i == lowerStr L)
      = some c) :
    handleIndustryChange l L = l ++ [c] := by
  simp [handleIndustryChange, h, hf]

/-- Equation lemma: when no selected entry matches and the canonical lookup
fails, the toggle is a no-op. -/
theorem handleIndustryChange_of_not_mem_none (l : List String) (L : String)
    (h : l.any (fun i => lowerStr i == lowerStr L) = false)
    (hf : availableIndustries.find? (fun i => lowerStr i == lowerStr L)
      = none) :
    handleIndustryChange l L = l := by
  simp [handleIndustryChange, h, hf]

/-- C7: the empty initial selection satisfies the invariant — every stored
entry is a canonical enumeration entry and no two entries differ only by
case — every toggle preserves it, and toggling a label with no
case-insensitive match in the enumeration leaves the selection unchanged. -/
theorem industrySelection_invariant :
    IndustryInv [] ∧
    (∀ l L, IndustryInv l → IndustryInv (handleIndustryChange l L)) ∧
    (∀ l L, IndustryInv l →
      (∀ c ∈ availableIndustries, lowerStr c ≠ lowerStr L) →
      handleIndustryChange l L = l) := by
  refine ⟨by decide, ?_, ?_⟩
  · rintro l L ⟨hmem, hpw⟩
    cases hany : l.any (fun i => lowerStr i == lowerStr L) with
    | true =>
        rw [handleIndustryChange_of_mem l L hany]
        exact ⟨fun x hx => hmem x (List.mem_filter.mp hx).1,
          hpw.sublist (List.filter_sublist l)⟩
    | false =>
        cases hf : availableIndustries.find?
            (fun i => lowerStr i == lowerStr L) with
        | none =>
            rw [handleIndustryChange_of_not_mem_none l L hany hf]
            exact ⟨hmem, hpw⟩
        | some c =>
            rw [handleIndustryChange_of_not_mem_found l L c hany hf]
            have hcl : lowerStr c = lowerStr L := by
              have := List.find?_some hf
              simpa using this
            refine ⟨?_, ?_⟩
            · intro x hx
              rcases List.mem_append.mp hx with h | h
              · exact hmem x h
              · rw [List.mem_singleton.mp h]
                exact List.mem_of_find?_eq_some hf
            · rw [List.pairwise_append]
              refine ⟨hpw, by simp, ?_⟩
              intro a ha b hb hab
              rw [List.mem_singleton.mp hb, hcl] at hab
              have := List.any_eq_false.mp hany a ha
              simp at this
              exact this hab
  · intro l L hinv hnone
    have hany : l.any (fun i => lowerStr i == lowerStr L) = false := by
      rw [List.any_eq_false]
      intro x hx
      simp
      exact hnone x (hinv.1 x hx)
    have hf : availableIndustries.find? (fun i => lowerStr i == lowerStr L)
        = none := by
      rw [List.find?_eq_none]
      intro x hx
      simp
      exact hnone x hx
    exact handleIndustryChange_of_not_mem_none l L hany hf

/-- Witness for C7: a concrete invariant-satisfying selection, and toggling
"Blockchain" (no case-insensitive canonical match) leaves it unchanged. -/
theorem industrySelection_invariant_witness :
    IndustryInv ["FinTech"] ∧
    (∀ c ∈ availableIndustries, lowerStr c ≠ lowerStr "Blockchain") ∧
    handleIndustryChange ["FinTech"] "Blockchain" = ["FinTech"] :=
  ⟨by decide, by decide,
    industrySelection_invariant.2.2 ["FinTech"] "Blockchain" (by decide)
      (by decide)⟩

/-- C6: over any invariant-satisfying selection and any label with a
case-insensitive canonical match, toggling the label and then any
case-variant of it returns the selection to its original contents; a toggle
of a not-yet-selected label adds the canonically-cased enumeration entry,
and a toggle of an already-selected label removes every case-insensitive
match of it. -/
theorem industryToggle_case_idempotent (l : List String) (L L' : String)
    (hinv : IndustryInv l)
    (hcanon : ∃ c ∈ availableIndustries, lowerStr c = lowerStr L)
    (hcase : lowerStr L' = lowerStr L) :
    List.Perm (handleIndustryChange (handleIndustryChange l L) L') l ∧
    ((∀ x ∈ l, lowerStr x ≠ lowerStr L) →
      ∃ c ∈ availableIndustries, lowerStr c = lowerStr L ∧
        handleIndustryChange l L = l ++ [c]) ∧
    (∀ x ∈ l, lowerStr x = lowerStr L →
      ∀ y, y ∈ handleIndustryChange l L ↔
        y ∈ l ∧ lowerStr y ≠ lowerStr L) := by
  have hsymm : Symmetric (fun a b : String => lowerStr a ≠ lowerStr b) :=
    fun a b h he => h he.symm
  refine ⟨?_, ?_, ?_⟩
  · by_cases hsel : ∃ x ∈ l, lowerStr x = lowerStr L
    · obtain ⟨x0, hx0, hx0l⟩ := hsel
      have hany : l.any (fun i => lowerStr i == lowerStr L) = true := by
        rw [List.any_eq_true]
        exact ⟨x0, hx0, by simp [hx0l]⟩
      rw [handleIndustryChange_of_mem l L hany]
      have hany2 : (l.filter (fun i => !(lowerStr i == lowerStr L))).any
          (fun i => lowerStr i == lowerStr L') = false := by
        rw [List.any_eq_false]
        intro x hx
        have hneq := (List.mem_filter.mp hx).2
        simp at hneq ⊢
        rw [hcase]
        exact hneq
      have hx0a : x0 ∈ availableIndustries := hinv.1 x0 hx0
      have hfs : (availableIndustries.find?
          (fun i => lowerStr i == lowerStr L')).isSome :=
        List.find?_isSome.mpr ⟨x0, hx0a, by simp [hcase, hx0l]⟩
      obtain ⟨c, hf⟩ := Option.isSome_iff_exists.mp hfs
      have hca : c ∈ availableIndustries := List.mem_of_find?_eq_some hf
      have hcl : lowerStr c = lowerStr L := by
        have := List.find?_some hf
        simp at this
        rw [← hcase]
        exact this
      have hcx0 : c = x0 :=
        availableIndustries_lower_inj c hca x0 hx0a (hcl.trans hx0l.symm)
      rw [handleIndustryChange_of_not_mem_found _ L' c hany2 hf, hcx0]
      have hnd : l.Nodup :=
        hinv.2.imp (fun h hab => h (congrArg lowerStr hab))
      have hfilter : l.filter (fun i => !(lowerStr i == lowerStr L))
          = l.erase x0 := by
        rw [hnd.erase_eq_filter x0]
        apply List.filter_congr
        intro a ha
        by_cases hax : a = x0
        · subst hax
          simp [hx0l]
        · have h1 : lowerStr a ≠ lowerStr x0 :=
            hinv.2.forall hsymm ha hx0 hax
          have h2 : lowerStr a ≠ lowerStr L := by
            rw [← hx0l]
            exact h1
          have e1 : (lowerStr a == lowerStr L) = false := by simpa using h2
          have e2 : (a != x0) = true := by simpa using hax
          rw [e1, e2]
          rfl
      rw [hfilter]
      calc l.erase x0 ++ [x0]
          ~ x0 :: l.erase x0 := List.perm_append_singleton x0 (l.erase x0)
        _ ~ l := (List.perm_cons_erase hx0).symm
    · push_neg at hsel
      have hany : l.any (fun i => lowerStr i == lowerStr L) = false := by
        rw [List.any_eq_false]
        intro x hx
        simp
        exact hsel x hx
      obtain ⟨c0, hc0a, hc0l⟩ := hcanon
      have hfs : (availableIndustries.find?
          (fun i => lowerStr i == lowerStr L)).isSome :=
        List.find?_isSome.mpr ⟨c0, hc0a, by simp [hc0l]⟩
      obtain ⟨c, hf⟩ := Option.isSome_iff_exists.mp hfs
      have hcl : lowerStr c = lowerStr L := by
        have := List.find?_some hf
        simpa using this
      rw [handleIndustryChange_of_not_mem_found l L c hany hf]
      have hany2 : (l ++ [c]).any (fun i => lowerStr i == lowerStr L')
          = true := by
        rw [List.any_eq_true]
        exact ⟨c, by simp, by simp [hcase, hcl]⟩
      rw [handleIndustryChange_of_mem _ L' hany2, List.filter_append]
      have h1 : l.filter (fun i => !(lowerStr i == lowerStr L')) = l := by
        rw [List.filter_eq_self]
        intro a ha
        simp [hcase]
        exact hsel a ha
      have h2 : [c].filter (fun i => !(lowerStr i == lowerStr L')) = [] := by
        simp [hcase, hcl]
      rw [h1, h2, List.append_nil]
  · intro hnot
    have hany : l.any (fun i => lowerStr i == lowerStr L) = false := by
      rw [List.any_eq_false]
      intro x hx
      simp
      exact hnot x hx
    obtain ⟨c0, hc0a, hc0l⟩ := hcanon
    have hfs : (availableIndustries.find?
        (fun i => lowerStr i == lowerStr L)).isSome :=
      List.find?_isSome.mpr ⟨c0, hc0a, by simp [hc0l]⟩
    obtain ⟨c, hf⟩ := Option.isSome_iff_exists.mp hfs
    have hcl : lowerStr c = lowerStr L := by
      have := List.find?_some hf
      simpa using this
    exact ⟨c, List.mem_of_find?_eq_some hf, hcl,
      handleIndustryChange_of_not_mem_found l L c hany hf⟩
  · intro x hx hxl y
    have hany : l.any (fun i => lowerStr i == lowerStr L) = true := by
      rw [List.any_eq_true]
      exact ⟨x, hx, by simp [hxl]⟩
    rw [handleIndustryChange_of_mem l L hany]
    simp [List.mem_filter]

/-- Witness for C6: the selection ["SaaS", "FinTech"], toggling "fintech"
then "FINTECH". -/
theorem industryToggle_case_idempotent_witness :
    IndustryInv ["SaaS", "FinTech"] ∧
    (∃ c ∈ availableIndustries, lowerStr c = lowerStr "fintech") ∧
    lowerStr "FINTECH" = lowerStr "fintech" ∧
    (List.Perm
      (handleIndustryChange (handleIndustryChange ["SaaS", "FinTech"]
        "fintech") "FINTECH") ["SaaS", "FinTech"] ∧
    ((∀ x ∈ ["SaaS", "FinTech"], lowerStr x ≠ lowerStr "fintech") →
      ∃ c ∈ availableIndustries, lowerStr c = lowerStr "fintech" ∧
        handleIndustryChange ["SaaS", "FinTech"] "fintech"
          = ["SaaS", "FinTech"] ++ [c]) ∧
    (∀ x ∈ ["SaaS", "FinTech"], lowerStr x = lowerStr "fintech" →
      ∀ y, y ∈ handleIndustryChange ["SaaS", "FinTech"] "fintech" ↔
        y ∈ ["SaaS", "FinTech"] ∧ lowerStr y ≠ lowerStr "fintech")) :=
  ⟨by decide, by decide, by decide,
    industryToggle_case_idempotent ["SaaS", "FinTech"] "fintech" "FINTECH"
      (by decide) (by decide) (by decide)⟩

/-- Concrete form data used by the concrete-input theorems. -/
def sampleForm : StartupForm :=
  { email := "founder@acme.io", startupName := "Acme",
    website := "https://acme.io", fundingStage := "seed",
    industries := ["SaaS", "FinTech"] }

/-- Concrete results-view state used by the concrete-input theorems:
page 2 of 5, no request in flight. -/
def sampleState : AppState :=
  { formData := sampleForm, isLoading := false, «matches» := [],
    totalMatches := 42, showResults := true, error := "", currentPage := 2,
    totalPages := 5 }

/-- Concrete investor record used by the concrete-input theorems. -/
def sampleVC : VC :=
  { id := 1, investor_name := "First Capital", match_score := 7 }

/-- Concrete matching response used by the concrete-input theorems. -/
def sampleResponse : MatchingResponse :=
  { success := true, sectors := ["SaaS"], count := 57,
    «matches» := [sampleVC], page := 3, per_page := 21, total_pages := 5 }

/-- C1 as amended: the page-change handler performs no rejection at all —
for every state, requested page and fetch outcome it issues exactly one
matching query, whose body carries the industries and funding stage frozen
in the form state, the requested page and the fixed page size. -/
theorem handlePageChange_always_requests (s : AppState) (page : Nat)
    (f : MatchingRequest → FetchResult MatchingResponse) :
    (handlePageChange s page f).2 = [pageChangeRequest s page] := by
  simp only [handlePageChange]
  cases f (pageChangeRequest s page) <;> rfl

/-- Counterexample to C1 as stated: in a concrete idle state on page 2 of 5,
requesting page 2 (equal to the current page, inside bounds, no request in
flight) issues a network call and changes the state. -/
theorem pageChange_no_guard_counterexample :
    sampleState.isLoading = false ∧
    sampleState.currentPage = 2 ∧
    1 ≤ 2 ∧ 2 ≤ sampleState.totalPages ∧
    (handlePageChange sampleState 2 (fun _ => .ok sampleResponse)).2 ≠ [] ∧
    (handlePageChange sampleState 2 (fun _ => .ok sampleResponse)).1
      ≠ sampleState := by
  decide

/-- C2: when all three calls succeed, the pipeline issues exactly the three
requests in order and the final state takes the match list, total count,
current page and total pages from the third response body, transitioning the
view to results. -/
theorem submit_success_sets_from_response (s : AppState)
    (f1 : FormspreeBody → FetchResult Unit)
    (f2 : StartupBody → FetchResult Unit)
    (f3 : MatchingRequest → FetchResult MatchingResponse)
    (d : MatchingResponse)
    (h1 : f1 (formspreeBody s) = .ok ())
    (h2 : f2 (startupBody s) = .ok ())
    (h3 : f3 (submitMatchingRequest s) = .ok d) :
    (handleSubmit s f1 f2 f3).1 =
      { s with
          «matches» := d.«matches»
          totalMatches := d.count
          currentPage := d.page
          totalPages := d.total_pages
          showResults := true
          isLoading := false
          error := "" } ∧
    (handleSubmit s f1 f2 f3).2 =
      [.formspree (formspreeBody s), .startup (startupBody s),
        .matching (submitMatchingRequest s)] := by
  simp [handleSubmit, h1, h2, h3]

/-- Witness for C2 at the concrete sample state with three succeeding
endpoints. -/
theorem submit_success_sets_from_response_witness :
    (handleSubmit sampleState (fun _ => .ok ()) (fun _ => .ok ())
      (fun _ => .ok sampleResponse)).1 =
      { sampleState with
          «matches» := sampleResponse.«matches»
          totalMatches := sampleResponse.count
          currentPage := sampleResponse.page
          totalPages := sampleResponse.total_pages
          showResults := true
          isLoading := false
          error := "" } ∧
    (handleSubmit sampleState (fun _ => .ok ()) (fun _ => .ok ())
      (fun _ => .ok sampleResponse)).2 =
      [.formspree (formspreeBody sampleState),
        .startup (startupBody sampleState),
        .matching (submitMatchingRequest sampleState)] :=
  submit_success_sets_from_response sampleState _ _ _ sampleResponse rfl rfl
    rfl

/-- C3: the pipeline is sequential and failures abort the rest — a
lead-capture failure leaves exactly one issued call and the error
"Failed to submit form data" with no other state applied; a startup-record
failure after a successful lead capture leaves exactly two issued calls and
the error "Failed to submit startup information", the matching query never
being issued. -/
theorem submit_failure_aborts (s : AppState)
    (f1 : FormspreeBody → FetchResult Unit)
    (f2 : StartupBody → FetchResult Unit)
    (f3 : MatchingRequest → FetchResult MatchingResponse) :
    (f1 (formspreeBody s) = .httpError →
      handleSubmit s f1 f2 f3 =
        ({ s with
            isLoading := false
            error := "Failed to submit form data" },
          [.formspree (formspreeBody s)])) ∧
    (f1 (formspreeBody s) = .ok () → f2 (startupBody s) = .httpError →
      handleSubmit s f1 f2 f3 =
        ({ s with
            isLoading := false
            error := "Failed to submit startup information" },
          [.formspree (formspreeBody s), .startup (startupBody s)])) := by
  constructor
  · intro h1
    simp only [handleSubmit, h1]
  · intro h1 h2
    simp only [handleSubmit, h1, h2]

/-- Witness for C3 at the concrete sample state with a failing lead-capture
endpoint. -/
theorem submit_failure_aborts_witness :
    handleSubmit sampleState (fun _ => .httpError) (fun _ => .ok ())
      (fun _ => .ok sampleResponse) =
      ({ sampleState with
          isLoading := false
          error := "Failed to submit form data" },
        [.formspree (formspreeBody sampleState)]) :=
  (submit_failure_aborts sampleState _ _ _).1 rfl

/-- C9: a successful page change replaces the match list, current page and
total pages from the response while leaving the total match count (and the
rest of the state) unchanged; a failed page change leaves the match list,
current page, total pages and total count unchanged, surfacing only the
error message and clearing the busy flag. -/
theorem pageChange_success_and_failure_frame (s : AppState) (page : Nat)
    (f : MatchingRequest → FetchResult MatchingResponse)
    (d : MatchingResponse) :
    (f (pageChangeRequest s page) = .ok d →
      (handlePageChange s page f).1 =
        { s with
            «matches» := d.«matches»
            currentPage := d.page
            totalPages := d.total_pages
            isLoading := false
            error := "" }) ∧
    (f (pageChangeRequest s page) = .httpError →
      (handlePageChange s page f).1 =
        { s with
            isLoading := false
            error := "Failed to find matching investors" }) := by
  constructor
  · intro h
    simp only [handlePageChange, h]
  · intro h
    simp only [handlePageChange, h]

/-- Witness for C9 at the concrete sample state: a successful change to
page 4 leaves the total count at its submission-time value. -/
theorem pageChange_success_and_failure_frame_witness :
    (handlePageChange sampleState 4 (fun _ => .ok sampleResponse)).1 =
      { sampleState with
          «matches» := sampleResponse.«matches»
          currentPage := sampleResponse.page
          totalPages := sampleResponse.total_pages
          isLoading := false
          error := "" } :=
  (pageChange_success_and_failure_frame sampleState 4 _ sampleResponse).1 rfl

/-- Witness for C4 at the concrete label "Seed" and the concrete input
"Seed, Series A, Series C". -/
theorem getStages_exactly_substring_labels_witness :
    ("Seed" ∈ getStages (some "Seed, Series A, Series C") ↔
      "Seed" ∈ knownStages ∧
        "Seed".data <:+: "Seed, Series A, Series C".data) ∧
    List.Sublist (getStages (some "Seed, Series A, Series C")) knownStages ∧
    getStages none = [] :=
  getStages_exactly_substring_labels "Seed" "Seed, Series A, Series C"

/-- Witness for C5 at the concrete label "SaaS" and the concrete input
"AI/ML and SAAS focus". -/
theorem deriveIndustryTags_exactly_matching_labels_witness :
    ("SaaS" ∈ deriveIndustryTags (some "AI/ML and SAAS focus") ↔
      "SaaS" ∈ availableIndustries ∧
        (lowerStr "SaaS").data <:+: (lowerStr "AI/ML and SAAS focus").data) ∧
    List.Sublist (deriveIndustryTags (some "AI/ML and SAAS focus"))
      availableIndustries ∧
    deriveIndustryTags none = [] ∧
    deriveIndustryTags (some "AI/ML and SAAS focus") = ["AI/ML", "SaaS"] :=
  deriveIndustryTags_exactly_matching_labels "SaaS" "AI/ML and SAAS focus"
